import Mathlib

/-!
Verification of the Auto-iFlow backend control-plane logic against its
natural-language specification.  Each section shallowly embeds one Python
module of the repository; file-system and subprocess effects are made
explicit as parameters, machine floats are modelled as rationals, and
JSON-shaped data is modelled by a small inductive type.

String operations are implemented by structural recursion on the character
list of a `String`, mirroring the semantics of the corresponding Python
string methods (noted at each definition).
-/

namespace AutoIFlow

/-! ## String primitives -/

def strOf (l : List Char) : String := ⟨l⟩

/-- Python `s.startswith(pre)`. -/
def pyStartsWith (s pre : String) : Bool := pre.data.isPrefixOf s.data

/-- Python `s.endswith(suf)`. -/
def pyEndsWith (s suf : String) : Bool := suf.data.reverse.isPrefixOf s.data.reverse

/-- Python `s.strip()` (no argument: strip whitespace from both ends). -/
def pyStripWs (s : String) : String :=
  strOf (((s.data.dropWhile Char.isWhitespace).reverse.dropWhile Char.isWhitespace).reverse)

/-- Python `s.replace(old, new)` for a single-character pattern (the only form
the embedded code uses, always with old = backslash and new = slash). -/
def pyReplaceChar (s : String) (old new : Char) : String :=
  strOf (s.data.map fun c => if c = old then new else c)

/-- Python `s[:-n]` for n ≤ len(s): drop the last n characters. -/
def pyDropRight (s : String) (n : Nat) : String :=
  strOf (s.data.take (s.data.length - n))

/-- Python `s.lower()`. -/
def pyLower (s : String) : String := strOf (s.data.map Char.toLower)

/-- Python `s.lstrip(cs)`: drop leading characters that belong to the set. -/
def pyLStrip (s : String) (cs : List Char) : String :=
  strOf (s.data.dropWhile (fun c => cs.contains c))

def pySplitWsAux : List Char → List Char → List String
  | [], acc => if acc = [] then [] else [strOf acc.reverse]
  | c :: rest, acc =>
      if c.isWhitespace then
        (if acc = [] then pySplitWsAux rest []
         else strOf acc.reverse :: pySplitWsAux rest [])
      else pySplitWsAux rest (c :: acc)

/-- Python `s.split()` (no argument: split on whitespace runs, no empties). -/
def pySplitWs (s : String) : List String := pySplitWsAux s.data []

/-- Python `sep.join(parts)`. -/
def pyIntercalate (sep : String) : List String → String
  | [] => ""
  | [x] => x
  | x :: rest => x ++ sep ++ pyIntercalate sep rest

def pyContainsSubAux (pat : String) : List Char → Bool
  | [] => pat.data.isPrefixOf []
  | c :: rest => pat.data.isPrefixOf (c :: rest) || pyContainsSubAux pat rest

/-- Python `pat in s` (substring containment). -/
def pyContainsSub (s pat : String) : Bool := pyContainsSubAux pat s.data

/-- Python `c in s` for a single character. -/
def pyContainsChar (s : String) (c : Char) : Bool := s.data.contains c

/-- Python `" ".join(s.strip().split())`: collapse whitespace runs. -/
def normalizeCommand (s : String) : String := pyIntercalate " " (pySplitWs s)

/-- Text after the last slash: Python `Path(s).name` for the normalized
(slash-separated, no trailing slash) paths this code applies it to. -/
def pathName (s : String) : String :=
  strOf ((s.data.reverse.takeWhile (fun c => c ≠ '/')).reverse)

/-! ## Session timeout resolution

Embedding of apps/backend/agents/session.py, function `_get_timeout_seconds`
(the identical helper also appears in spec/pipeline/agent_runner.py).
The raw environment value is either absent, a string that does not parse as a
float, or a numeric value; numeric values are modelled as rationals (NaN and
infinity are not modelled).  A result of `none` means "no bound": the caller
`_await_with_timeout` awaits without any timeout in that case. -/

inductive EnvFloat where
  | unset
  | unparseable
  | value (q : ℚ)
deriving DecidableEq, Repr

def getTimeoutSeconds : EnvFloat → ℚ → Option ℚ
  | .unset, d => some d
  | .unparseable, d => some d
  | .value v, _ => if v ≤ 0 then none else some v

/-- The three timeout environment variables read at module load in
session.py, with their documented defaults (seconds). -/
def sessionTimeoutEnvDefaults : List (String × ℚ) :=
  [("IFLOW_STREAM_IDLE_TIMEOUT_SEC", 300),
   ("POST_SESSION_INSIGHTS_TIMEOUT_SEC", 60),
   ("POST_SESSION_MEMORY_TIMEOUT_SEC", 60)]

/-! ## Scope contract rules

Embedding of apps/backend/spec/validate_pkg/scope_contract_rules.py:
`_normalize_path`, `_strip_glob` and `validate_scope_rules`. -/

def normalizePath (path : String) : String :=
  let cleaned := pyReplaceChar (pyStripWs path) '\\' '/'
  if pyEndsWith cleaned "/" then pyDropRight cleaned 1 else cleaned

def stripGlob (path : String) : String :=
  let cleaned := normalizePath path
  if pyEndsWith cleaned "/**" then pyDropRight cleaned 3 else cleaned

/-- The overlap test applied to one (allowed, forbidden-base) pair inside the
nested loop of `validate_scope_rules`: the pair is flagged when the forbidden
base is non-empty and the allowed base equals it or lies strictly under it. -/
def overlapHit (allowedBase forbiddenBase : String) : Bool :=
  forbiddenBase ≠ "" &&
    (allowedBase == forbiddenBase || pyStartsWith allowedBase (forbiddenBase ++ "/"))

def overlapMsg (allowed forbiddenBase : String) : String :=
  "allowed_paths overlaps forbidden_paths: " ++ allowed ++ " -> " ++ forbiddenBase

/-- Inner loop of `validate_scope_rules` for a fixed allowed entry: walk the
pre-stripped forbidden bases and emit one error message per hit. -/
def overlapErrorsFor (allowed : String) : List String → List String
  | [] => []
  | fb :: rest =>
      (if overlapHit (stripGlob allowed) fb then [overlapMsg allowed fb] else [])
        ++ overlapErrorsFor allowed rest

/-- Outer loop of `validate_scope_rules` over the allowed entries. -/
def overlapErrors (allowedPaths : List String) (forbiddenBases : List String) :
    List String :=
  match allowedPaths with
  | [] => []
  | a :: rest => overlapErrorsFor a forbiddenBases ++ overlapErrors rest forbiddenBases

/-- Relative-path errors: one error per allowed entry whose normalized form
starts with "/". -/
def relativeErrors : List String → List String
  | [] => []
  | a :: rest =>
      (if pyStartsWith (normalizePath a) "/" then
        ["allowed_paths must be relative: " ++ a] else [])
        ++ relativeErrors rest

/-- Embedding of `validate_scope_rules`; returns (errors, warnings) with the
messages in the order the Python function appends them. -/
def validateScopeRules (allowedPaths forbiddenPaths : List String) :
    List String × List String :=
  let emptyErrors := if allowedPaths.isEmpty then ["allowed_paths must not be empty"] else []
  let forbiddenBases := forbiddenPaths.map stripGlob
  let errors := emptyErrors ++ relativeErrors allowedPaths
    ++ overlapErrors allowedPaths forbiddenBases
  let warnings := if forbiddenPaths.isEmpty then ["forbidden_paths is empty"] else []
  (errors, warnings)

/-! ## Security hook

Embedding of apps/backend/security/hooks.py (`bash_security_hook`,
`_normalize_command`, `_segment_matches_test_plan`,
`DEFAULT_BLOCKED_TEST_COMMANDS`) and of `NON_CODE_BLOCKED_COMMANDS` from
security/constants.py.  The payload handed to the hook is JSON-shaped data
from the SDK, modelled by `JVal`. -/

inductive JVal where
  | null
  | bool (b : Bool)
  | num (n : Int)
  | str (s : String)
  | list (xs : List JVal)
  | dict (entries : List (String × JVal))

/-- Python truthiness for the JSON-shaped values the hook inspects. -/
def jTruthy : JVal → Bool
  | .null => false
  | .bool b => b
  | .num n => n != 0
  | .str s => s != ""
  | .list xs => !xs.isEmpty
  | .dict es => !es.isEmpty

/-- Python `type(v).__name__` for the modelled JSON values. -/
def jTypeName : JVal → String
  | .null => "NoneType"
  | .bool _ => "bool"
  | .num _ => "int"
  | .str _ => "str"
  | .list _ => "list"
  | .dict _ => "dict"

/-- True exactly for the values `isinstance(v, dict)` accepts. -/
def jIsDict : JVal → Bool
  | .dict _ => true
  | _ => false

/-- Python `d.get(k)` on a dict with unique keys. -/
def jLookup (es : List (String × JVal)) (k : String) : Option JVal :=
  match es with
  | [] => none
  | (k2, v) :: rest => if k2 = k then some v else jLookup rest k

def DEFAULT_BLOCKED_TEST_COMMANDS : List String :=
  ["npm test", "npm run test", "npm run test:backend", "npm run test:e2e",
   "pnpm test", "pnpm run test", "yarn test", "pytest", "go test",
   "cargo test", "bundle exec rspec", "dotnet test", "mvn test", "gradle test"]

def NON_CODE_BLOCKED_COMMANDS : List String :=
  ["npm test", "npm run test", "npm run test:backend", "npm run test:e2e",
   "npm run build", "npm run package", "pnpm test", "pnpm run test",
   "yarn test", "pytest", "go test", "cargo test", "bundle exec rspec",
   "dotnet test", "mvn test", "gradle test", "git commit", "git merge",
   "git rebase", "git cherry-pick", "./init.sh", "chmod +x init.sh"]

/-- Embedding of `_segment_matches_test_plan`: a segment matches a plan entry
by whitespace-normalized equality or word-boundary prefix in either
direction. -/
def segmentMatchesTestPlan (segment : String) (planCommands : List String) : Bool :=
  if planCommands.isEmpty then false
  else
    let segNorm := normalizeCommand segment
    if segNorm = "" then false
    else planCommands.any fun planCmd =>
      let planNorm := normalizeCommand planCmd
      planNorm != "" &&
        (segNorm == planNorm || pyStartsWith segNorm (planNorm ++ " ")
          || pyStartsWith planNorm (segNorm ++ " "))

inductive Decision where
  | allow
  | block (reason : String)
deriving DecidableEq, Repr

def Decision.isBlocked : Decision → Bool
  | .allow => false
  | .block _ => true

/-- Process context of the hook: resolved values of the environment variables
and config files it reads.  `testPlan` is the result of
`_load_test_plan_from_env` and `taskType` the result of
`_resolve_task_type`. -/
structure HookEnv where
  manualVerification : Bool
  manualSubtask : String
  blockTestCommands : Bool
  testPlan : List String
  taskType : String

/-- Modelled from the spec: the modules security/parser.py
(`split_command_segments`, `extract_commands`, `get_command_for_validation`),
security/profile.py, security/validator.py and project_analyzer.py
(`is_command_allowed`) are not among the sources, only their import sites;
the hook is therefore parametrized over these functions.  Per the spec, the
command is split into sequential segments at shell operators, program names
are extracted from the full command, and each extracted program is checked
against the active allowlist and its registered validator. -/
structure GateDeps where
  splitSegments : String → List String
  extractCommands : String → List String
  isCommandAllowed : String → Bool × String
  validatorList : List (String × (String → Bool × String))
  getCommandForValidation : String → List String → String

/-- Final loop of `bash_security_hook`: allowlist check plus registered
validator for each extracted program name. -/
def runCommandChecks (deps : GateDeps) (command : String) (segments : List String) :
    List String → Decision
  | [] => .allow
  | cmd :: rest =>
      let check := deps.isCommandAllowed cmd
      if !check.1 then .block check.2
      else
        match deps.validatorList.find? (fun p => p.1 = cmd) with
        | some entry =>
            let seg := entry.2 (
              if deps.getCommandForValidation cmd segments = "" then command
              else deps.getCommandForValidation cmd segments)
            if !seg.1 then .block seg.2
            else runCommandChecks deps command segments rest
        | none => runCommandChecks deps command segments rest

/-- Python `input_data.get("tool_name") != "Bash"` is false exactly when the
value is the string "Bash". -/
def isBashToolName : Option JVal → Bool
  | some (.str s) => s == "Bash"
  | _ => false

/-- Embedding of `bash_security_hook`.  An `{}` (allow) return is `.allow`;
a `{"decision": "block", ...}` return is `.block reason`.  A truthy
non-string command is handed by the source to the missing parser module; per
the spec ("any parse error ⇒ block") it is modelled as a parse-failure
block. -/
def bashSecurityHook (env : HookEnv) (deps : GateDeps)
    (inputData : List (String × JVal)) : Decision :=
  if !isBashToolName (jLookup inputData "tool_name") then .allow
  else if env.manualVerification then
    .block ("Manual verification mode"
      ++ (if env.manualSubtask != "" then " for subtask " ++ env.manualSubtask else "")
      ++ ": command execution disabled")
  else
    match jLookup inputData "tool_input" with
    | none => .block "Bash tool_input is None - malformed tool call from SDK"
    | some .null => .block "Bash tool_input is None - malformed tool call from SDK"
    | some (.dict toolInput) =>
        let command := (jLookup toolInput "command").getD (.str "")
        if !jTruthy command then .allow
        else
          match command with
          | .str cmdStr =>
              let segments := deps.splitSegments cmdStr
              let blockedCommands :=
                if env.testPlan.isEmpty then DEFAULT_BLOCKED_TEST_COMMANDS
                else env.testPlan
              if env.blockTestCommands
                  && segments.any (fun seg => segmentMatchesTestPlan seg blockedCommands) then
                .block "Test commands are reserved for Post-Code Tests. Run tests only after coding completes."
              else if env.taskType != "code"
                  && segments.any (fun seg => segmentMatchesTestPlan seg NON_CODE_BLOCKED_COMMANDS) then
                .block "Non-code task: command execution limited to read-only operations."
              else
                let cmds := deps.extractCommands cmdStr
                if cmds.isEmpty then
                  .block ("Could not parse command for security validation: " ++ cmdStr)
                else runCommandChecks deps cmdStr segments cmds
          | _ => .block "Could not parse command for security validation"
    | some v => .block ("Bash tool_input must be dict, got " ++ jTypeName v)

/-! ## Preflight scoper

Embedding of apps/backend/spec/pipeline/preflight_scoper.py:
`_normalize_path`, `_is_concrete_file`, `_is_prompt_runtime`, `_is_doc_file`,
`_is_runtime_config`, `_get_tests_for_file`, `_apply_priority_filter`,
`_apply_smart_cap`, `_determine_tests_to_run` and `_resolve_files_to_modify`.
File-system probes (existence of scripts/smoke-build.sh, IPC-marker scan of a
touched file) enter as boolean parameters, and the per-file alias derivation
enters `_determine_tests_to_run` as a function parameter `getTests`. -/

def pfNormalizePath (p : String) : String :=
  pyLStrip (pyReplaceChar p '\\' '/') ['.', '/']

def isConcreteFile (path : String) : Bool :=
  if path = "" then false
  else
    let normalized := pfNormalizePath path
    if pyEndsWith normalized "/" then false
    else if pyContainsChar normalized '*' || pyContainsChar normalized '?'
        || pyContainsChar normalized '[' then false
    else true

def PROMPT_RUNTIME_PREFIXES : List String :=
  ["apps/backend/prompts/", "apps/backend/prompts_pkg/"]

def RUNTIME_CONFIG_NAMES : List String :=
  ["pytest.ini", "pyproject.toml", "package.json", "dockerfile"]

def RUNTIME_CONFIG_PREFIXES : List String := [".env", "vite.config.", "electron-builder."]

def RUNTIME_CONFIG_PATHS : List String := [".github/workflows/"]

def DOC_PREFIXES : List String := ["new-plans/"]

def isPromptRuntime (normalized : String) : Bool :=
  PROMPT_RUNTIME_PREFIXES.any (fun p => pyStartsWith normalized p)

def isDocFile (normalized : String) : Bool :=
  let name := pathName normalized
  if DOC_PREFIXES.any (fun p => pyStartsWith normalized p) then true
  else if pyStartsWith name "CODEX-" && pyEndsWith (pyLower name) ".md" then true
  else if pyEndsWith (pyLower normalized) ".md" && !isPromptRuntime normalized then true
  else false

def isRuntimeConfig (normalized : String) : Bool :=
  let name := pathName normalized
  if RUNTIME_CONFIG_NAMES.contains (pyLower name) then true
  else if RUNTIME_CONFIG_PREFIXES.any (fun p => pyStartsWith name p) then true
  else if RUNTIME_CONFIG_PATHS.any (fun seg => pyContainsSub normalized seg) then true
  else false

/-- Embedding of `_get_tests_for_file`.  `smokeExists` models the existence
check of project_dir/scripts/smoke-build.sh; `hasIpcChange` is the flag
computed once per call of `_determine_tests_to_run`. -/
def getTestsForFile (smokeExists hasIpcChange : Bool) (filePath : String) :
    List String :=
  let nl := pyLower (pfNormalizePath filePath)
  if isPromptRuntime nl then ["PYTEST_PIPELINE", "PYTEST_PROMPTS"]
  else if isDocFile nl then []
  else if isRuntimeConfig nl then
    (if (pyContainsSub nl "dockerfile" || pyContainsSub nl ".github/workflows/")
        && smokeExists
     then ["scripts/smoke-build.sh"] else ["PYTEST_COLLECT"])
  else if pyStartsWith nl "apps/backend/" then
    let hits :=
      (if pyContainsSub nl "apps/backend/security/" then ["PYTEST_SECURITY"] else [])
      ++ (if pyContainsSub nl "apps/backend/spec/pipeline/" then
            ["PYTEST_PIPELINE", "PYTEST_ROUTING"] else [])
      ++ (if pyContainsSub nl "apps/backend/qa/" then ["PYTEST_PROOF_GATE"] else [])
      ++ (if pyContainsSub nl "apps/backend/ipc/" then ["PYTEST_PIPELINE", "NPM_TEST"] else [])
      ++ (if pyContainsSub nl "apps/backend/agents/" then ["PYTEST_PIPELINE"] else [])
      ++ (if pyContainsSub nl "apps/backend/prompts_pkg/" then ["PYTEST_PIPELINE"] else [])
    if hits.isEmpty then ["PYTEST_PIPELINE"] else hits
  else if pyStartsWith nl "apps/frontend/" then
    if hasIpcChange then ["NPM_TEST", "PYTEST_PIPELINE"] else ["NPM_TEST"]
  else if pyStartsWith nl "apps/shared/" then ["NPM_TEST", "PYTEST_PIPELINE"]
  else if pyContainsSub nl "/types/" || pyEndsWith nl ".d.ts" then
    ["NPM_TEST", "PYTEST_PIPELINE"]
  else []

/-- Stable insertion into a list sorted by the boolean relation. -/
def insertSorted (le : α → α → Bool) (x : α) : List α → List α
  | [] => [x]
  | y :: rest => if le x y then x :: y :: rest else y :: insertSorted le x rest

/-- Insertion sort; with the injective (rank, original-index) keys used below
it computes exactly the Python stable sort of `_apply_priority_filter`. -/
def sortByKey (le : α → α → Bool) : List α → List α
  | [] => []
  | x :: rest => insertSorted le x (sortByKey le rest)

def TEST_PRIORITIES : List String :=
  ["PYTEST_SECURITY", "PYTEST_PIPELINE", "PYTEST_PROOF_GATE", "NPM_TEST",
   "PYTEST_COLLECT"]

def priorityRank (a : String) : Nat :=
  (TEST_PRIORITIES.findIdx? (fun p => p = a)).getD TEST_PRIORITIES.length

/-- Embedding of `_apply_priority_filter`: sort by (priority rank, original
position) and keep the first `maxCount` entries. -/
def applyPriorityFilter (tests : List String) (maxCount : Int) : List String :=
  let le := fun (p q : Nat × String) =>
    priorityRank p.2 < priorityRank q.2
      || (priorityRank p.2 == priorityRank q.2 && p.1 ≤ q.1)
  ((sortByKey le tests.enum).take maxCount.toNat).map (fun p => p.2)

def DIRECT_ALIASES : List String :=
  ["PYTEST_SECURITY", "PYTEST_PROOF_GATE", "PYTEST_PIPELINE"]

/-- Embedding of `_apply_smart_cap`. -/
def applySmartCap (tests filesToModify : List String) (maxCount : Int) :
    List String :=
  if maxCount ≤ 0 ∨ (tests.length : Int) ≤ maxCount then tests
  else if filesToModify.isEmpty then applyPriorityFilter tests maxCount
  else
    let direct := tests.filter (fun a => DIRECT_ALIASES.contains a)
    let indirect := tests.filter (fun a => !direct.contains a)
    let remaining : Int := max 0 (maxCount - direct.length)
    let indirectKept :=
      if 0 < remaining ∧ indirect ≠ [] then applyPriorityFilter indirect remaining
      else []
    direct ++ indirectKept

/-- Alias accumulation with the seen-set dedupe of `_determine_tests_to_run`:
append each alias not seen before, preserving first-seen order. -/
def addNewAliases (acc : List String) : List String → List String
  | [] => acc
  | a :: rest => addNewAliases (if acc.contains a then acc else acc ++ [a]) rest

def collectTests (getTests : String → List String) :
    List String → List String → List String
  | [], acc => acc
  | f :: rest, acc => collectTests getTests rest (addNewAliases acc (getTests f))

/-- The clarifying question recorded for a code task without known files
(Russian for "Which files will be modified?"). -/
def QUESTION_FILES : String := "Какие файлы будут изменены?"

/-- Embedding of `_determine_tests_to_run`; returns the derived tests and the
updated clarifying-question list (the Python function mutates its list
argument). -/
def determineTestsToRun (taskType : String) (filesToModify : List String)
    (getTests : String → List String) (clarifyingQuestions : List String) :
    List String × List String :=
  if taskType != "code" then ([], clarifyingQuestions)
  else if filesToModify.isEmpty then
    ([], if clarifyingQuestions.contains QUESTION_FILES then clarifyingQuestions
         else clarifyingQuestions ++ [QUESTION_FILES])
  else
    let tests := collectTests getTests filesToModify []
    (if 2 < tests.length then applySmartCap tests filesToModify 2 else tests,
     clarifyingQuestions)

def QUESTION_CONFIRM (files : List String) : String :=
  "Подтверди список файлов для изменения: " ++ pyIntercalate ", " files

def QUESTION_REFINE : String :=
  "Уточни конкретные файлы для изменения (candidate_files слишком общий)."

/-- Embedding of `_resolve_files_to_modify`.  `explicitFiles` is
requirements["files_to_modify"] when that value is a list (`none` when absent
or not a list); `candidateFiles` is scope_contract["candidate_files"] already
coerced to a list as in the source.  Returns ((files, source, inferred),
updated questions). -/
def resolveFilesToModify (taskType : String) (explicitFiles : Option (List String))
    (candidateFiles : List String) (clarifyingQuestions : List String) :
    (List String × String × Bool) × List String :=
  if (match explicitFiles with | some l => !l.isEmpty | none => false) then
    ((explicitFiles.getD [], "requirements.json", false), clarifyingQuestions)
  else if taskType != "code" then (([], "none", false), clarifyingQuestions)
  else
    let concrete := candidateFiles.filter isConcreteFile
    if 0 < concrete.length ∧ concrete.length ≤ 2 then
      ((concrete, "scope_contract", true),
        clarifyingQuestions ++ [QUESTION_CONFIRM concrete])
    else if !candidateFiles.isEmpty then
      (([], "missing", true), clarifyingQuestions ++ [QUESTION_REFINE])
    else
      (([], "missing", true), clarifyingQuestions ++ [QUESTION_FILES])

/-- The fields of the task_intake document that `run_preflight_scoper`
computes through `_resolve_files_to_modify` and `_determine_tests_to_run`. -/
structure TaskIntakeCore where
  filesToModify : List String
  filesSource : String
  filesInferred : Bool
  testsToRun : List String
  clarifyingQuestions : List String

/-- Wiring of `run_preflight_scoper` for those fields: files are resolved
first (possibly adding clarifying questions), then the tests are derived. -/
def preflightIntakeCore (taskType : String) (explicitFiles : Option (List String))
    (candidateFiles : List String) (getTests : String → List String)
    (questions0 : List String) : TaskIntakeCore :=
  let r1 := resolveFilesToModify taskType explicitFiles candidateFiles questions0
  let r2 := determineTestsToRun taskType r1.1.1 getTests r1.2
  ⟨r1.1.1, r1.1.2.1, r1.1.2.2, r2.1, r2.2⟩

/-! ## Post-code test runner

Embedding of apps/backend/spec/post_code_tests.py: the status computation of
`_run_command`, `_summarize_results`, and the report produced by
`run_post_code_tests`.  Executing one command is modelled by its observable
outcome (whether the timeout fired, and the exit code returned by the
process, `none` when unavailable); per-command execution enters as the
function parameter `run`. -/

structure CommandOutcome where
  timedOut : Bool
  returncode : Option Int

/-- Status assigned by `_run_command`: "timed_out" when the timeout fired,
otherwise "passed" exactly for exit code 0. -/
def commandStatus (o : CommandOutcome) : String :=
  if o.timedOut then "timed_out"
  else if o.returncode = some 0 then "passed"
  else "failed"

structure TestsSummary where
  total : Nat
  passed : Nat
  failed : Nat
deriving DecidableEq, Repr

/-- Embedding of `_summarize_results`: `passed` counts results whose status
is "passed", `failed` is the rest. -/
def summarizeResults (statuses : List String) : TestsSummary :=
  ⟨statuses.length,
   (statuses.filter (fun s => s == "passed")).length,
   statuses.length - (statuses.filter (fun s => s == "passed")).length⟩

structure PostCodeReport where
  status : String
  results : List String
  summary : TestsSummary

/-- Embedding of `run_post_code_tests` restricted to the report fields the
claims are about.  An empty test plan yields the "skipped" report for a
non-code task and the "failed" report (reason: missing test_plan entries)
for a code task; otherwise every plan command is run and the aggregate
status is "passed" exactly when the summary counts no failure. -/
def runPostCodeTests (taskType : String) (testPlan : List String)
    (run : String → CommandOutcome) : PostCodeReport :=
  if testPlan.isEmpty then
    if taskType != "code" then ⟨"skipped", [], ⟨0, 0, 0⟩⟩
    else ⟨"failed", [], ⟨0, 0, 0⟩⟩
  else
    let statuses := testPlan.map (fun c => commandStatus (run c))
    let summary := summarizeResults statuses
    ⟨if summary.failed = 0 then "passed" else "failed", statuses, summary⟩

/-! ## Model resolver

Embedding of apps/backend/core/model_resolver.py (`_normalize_phase`,
`_select_choice`, `_resolve_from_sources`, `_get_recommended_model`,
`_get_thinking_budget`, `resolve_model`) and of `resolve_model_id` /
`build_alias_map` from core/model_registry.py.  Loading of
task_metadata.json, project.env.json and the app settings is modelled by
passing the three extracted modelRouting values as the `sources` list, in
that order, exactly as `resolve_model` builds it.  The model registry
(shared/models.json, no custom user profile) enters as a list of entries. -/

structure ModelChoice where
  model : Option String
  thinkingLevel : Option String

/-- A JSON value sitting where a `{model, thinkingLevel}` object is
expected: either such an object (missing keys read as null) or a value that
is not a dict, which `_select_choice` skips. -/
inductive RoutingVal where
  | choice (c : ModelChoice)
  | nonDict

structure Routing where
  advancedRoles : List (String × List (String × RoutingVal))
  features : List (String × RoutingVal)
  phases : List (String × RoutingVal)

def alistGet {α : Type} : List (String × α) → String → Option α
  | [], _ => none
  | (k2, v) :: rest, k => if k2 = k then some v else alistGet rest k

/-- Python truthiness of an optional string argument (`if phase:` etc.). -/
def pyTruthyOpt : Option String → Bool
  | some s => s != ""
  | none => false

/-- Embedding of `_normalize_phase`. -/
def normalizePhaseName : Option String → Option String
  | some "qa" => some "validation"
  | p => p

/-- The advancedRoles[feature][role] lookup of `_select_choice`, taken only
when both feature and role are truthy and the entry is a dict. -/
def roleChoiceOf (routing : Routing) (feature role : Option String) :
    Option ModelChoice :=
  if pyTruthyOpt role && pyTruthyOpt feature then
    match alistGet routing.advancedRoles (feature.getD "") with
    | some inner =>
        match alistGet inner (role.getD "") with
        | some (.choice c) => some c
        | _ => none
    | none => none
  else none

/-- The features[feature] lookup of `_select_choice`. -/
def featureChoiceOf (routing : Routing) (feature : Option String) :
    Option ModelChoice :=
  if pyTruthyOpt feature then
    match alistGet routing.features (feature.getD "") with
    | some (.choice c) => some c
    | _ => none
  else none

/-- The phases[phase] lookup of `_select_choice`. -/
def phaseChoiceOf (routing : Routing) (phase : Option String) :
    Option ModelChoice :=
  if pyTruthyOpt phase then
    match alistGet routing.phases (phase.getD "") with
    | some (.choice c) => some c
    | _ => none
  else none

/-- Embedding of `_select_choice`: inside one source, return the first entry
that exists and is a dict, trying advancedRoles[feature][role] (only when
both feature and role are truthy), then features[feature], then
phases[phase]. -/
def selectChoice (routing : Routing) (phase feature role : Option String) :
    Option ModelChoice :=
  match roleChoiceOf routing feature role with
  | some c => some c
  | none =>
      match featureChoiceOf routing feature with
      | some c => some c
      | none => phaseChoiceOf routing phase

/-- Loop of `_resolve_from_sources`: fold over the sources, keeping the first
non-null model and the first non-null thinkingLevel found in selected
choices. -/
def resolveFromSourcesAux (phase feature role : Option String) :
    List Routing → Option String → Option String → Option String × Option String
  | [], m, t => (m, t)
  | r :: rest, m, t =>
      match selectChoice r phase feature role with
      | none => resolveFromSourcesAux phase feature role rest m t
      | some c =>
          resolveFromSourcesAux phase feature role rest (m <|> c.model)
            (t <|> c.thinkingLevel)

def resolveFromSources (sources : List Routing) (phase feature role : Option String) :
    Option String × Option String :=
  resolveFromSourcesAux phase feature role sources none none

structure ModelEntry where
  id : String
  aliases : List String
  recommendedFor : List String
  supportsThinking : Option Bool
deriving DecidableEq, Repr

/-- Scan of `_get_recommended_model`: first registry entry whose
recommendedFor contains the phase, or failing that the feature. -/
def recommendedScan (phase feature : Option String) : List ModelEntry → Option String
  | [] => none
  | m :: rest =>
      if pyTruthyOpt phase && m.recommendedFor.contains (phase.getD "") then some m.id
      else if pyTruthyOpt feature && m.recommendedFor.contains (feature.getD "") then
        some m.id
      else recommendedScan phase feature rest

/-- Embedding of `_get_recommended_model`; `none` when the registry is empty,
where the source raises IndexError on its final fallback to models[0]. -/
def getRecommendedModel (models : List ModelEntry) (phase feature : Option String) :
    Option String :=
  match recommendedScan phase feature models with
  | some m => some m
  | none => models.head?.map (fun m => m.id)

def THINKING_PARAMS : List (String × Option Int) :=
  [("none", none), ("low", some 1024), ("medium", some 4096),
   ("high", some 16384), ("ultrathink", some 65536)]

def getModelInfo (models : List ModelEntry) (modelId : String) : Option ModelEntry :=
  models.find? (fun m => m.id = modelId)

/-- Embedding of `_get_thinking_budget`: a model that declares
supportsThinking = false forces ("none", null); otherwise an unknown level
falls back to "medium" and the level maps through THINKING_PARAMS. -/
def getThinkingBudget (models : List ModelEntry) (thinkingLevel : String)
    (modelId : String) : String × Option Int :=
  let supports :=
    match getModelInfo models modelId with
    | none => true
    | some e => e.supportsThinking.getD true
  if !supports then ("none", none)
  else
    let level :=
      if (alistGet THINKING_PARAMS thinkingLevel).isSome then thinkingLevel
      else "medium"
    (level, (alistGet THINKING_PARAMS level).getD none)

/-- Last-wins association lookup: Python dict assignment semantics for maps
built by repeated `d[k] = v`. -/
def alistGetLast : List (String × String) → String → Option String
  | [], _ => none
  | (k2, v) :: rest, k =>
      match alistGetLast rest k with
      | some r => some r
      | none => if k2 = k then some v else none

/-- Embedding of `_collect_aliases`: alias → id pairs in registry order. -/
def collectAliases (models : List ModelEntry) : List (String × String) :=
  match models with
  | [] => []
  | m :: rest => m.aliases.map (fun a => (a, m.id)) ++ collectAliases rest

/-- Embedding of `build_alias_map` without a user profile: model aliases
update (override) the legacy aliases. -/
def aliasMapLookup (legacyAliases : List (String × String))
    (models : List ModelEntry) (a : String) : Option String :=
  match alistGetLast (collectAliases models) a with
  | some t => some t
  | none => alistGetLast legacyAliases a

/-- Embedding of `resolve_model_id` (no user profile): an environment
override for the three tier shorthands wins, then the alias map, then the
name itself. -/
def resolveModelId (envLookup : String → Option String)
    (legacyAliases : List (String × String)) (models : List ModelEntry)
    (model : String) : String :=
  let tierVar : Option String :=
    match model with
    | "haiku" => some "IFLOW_DEFAULT_HAIKU_MODEL"
    | "sonnet" => some "IFLOW_DEFAULT_SONNET_MODEL"
    | "opus" => some "IFLOW_DEFAULT_OPUS_MODEL"
    | _ => none
  let fromEnv : Option String :=
    match tierVar with
    | some var =>
        match envLookup var with
        | some v => if v != "" then some v else none
        | none => none
    | none => none
  match fromEnv with
  | some v => v
  | none => (aliasMapLookup legacyAliases models model).getD model

/-- Embedding of `resolve_model`: source walk, CLI overrides, recommended
fallback, alias resolution, thinking budget.  Returns `none` exactly when a
recommended model is needed but the registry is empty (IndexError in the
source). -/
def resolveModel (models : List ModelEntry) (legacyAliases : List (String × String))
    (envLookup : String → Option String) (sources : List Routing)
    (phase feature role : Option String) (cliModel cliThinking : Option String) :
    Option (String × String × Option Int) :=
  let phase2 := normalizePhaseName phase
  let mt := resolveFromSources sources phase2 feature role
  let modelValue := if pyTruthyOpt cliModel then cliModel else mt.1
  let thinkingLevel := if pyTruthyOpt cliThinking then cliThinking else mt.2
  let modelValue2 :=
    match modelValue with
    | some v => some v
    | none => getRecommendedModel models phase2 feature
  match modelValue2 with
  | none => none
  | some v =>
      let modelId := resolveModelId envLookup legacyAliases models v
      let tb := getThinkingBudget models (thinkingLevel.getD "medium") modelId
      some (modelId, tb.1, tb.2)

/-! ## Claimed lookup order for model resolution

The claim (and the spec sentence it quotes) reads the lookup as trying, for
every source in order, all three of advancedRoles[feature][role],
features[feature] and phases[phase], with the first non-null model found in
any of these nine slots winning.  The following definition formalizes that
reading, to be compared with the embedded `resolveFromSources`. -/

def claimedSourceChoices (routing : Routing) (phase feature role : Option String) :
    List ModelChoice :=
  (roleChoiceOf routing feature role).toList
    ++ (featureChoiceOf routing feature).toList
    ++ (phaseChoiceOf routing phase).toList

def claimedAllChoices (sources : List Routing) (phase feature role : Option String) :
    List ModelChoice :=
  match sources with
  | [] => []
  | s :: rest =>
      claimedSourceChoices s phase feature role
        ++ claimedAllChoices rest phase feature role

/-- First non-null model and first non-null thinkingLevel over the claimed
slot order. -/
def claimedResolveFromSources (sources : List Routing)
    (phase feature role : Option String) : Option String × Option String :=
  let all := claimedAllChoices sources phase feature role
  ((all.filterMap (fun c => c.model)).head?,
   (all.filterMap (fun c => c.thinkingLevel)).head?)

/-! ## Concrete fixtures used by counterexamples and witnesses -/

/-- Hook context with every flag off and an empty test plan. -/
def hookEnvPermissive : HookEnv := ⟨false, "", false, [], "code"⟩

/-- Hook context with test-command blocking on and no configured test plan. -/
def hookEnvBlockTests : HookEnv := ⟨false, "", true, [], "code"⟩

/-- Parser/profile stub: one segment, one extracted program, everything
allowed, no validators. -/
def gateDepsId : GateDeps :=
  ⟨fun c => [c], fun c => [c], fun _ => (true, ""), [], fun _ _ => ""⟩

/-- Parser/profile stub whose extraction finds no program names. -/
def gateDepsNoParse : GateDeps :=
  ⟨fun c => [c], fun _ => [], fun _ => (true, ""), [], fun _ _ => ""⟩

/-- Routing source whose features entry has a null model and whose phases
entry carries one. -/
def routingFeatureNullModel : Routing :=
  ⟨[], [("cons", .choice ⟨none, some "high"⟩)],
   [("coding", .choice ⟨some "X", none⟩)]⟩

/-- One-entry registry recommending "rec" for the coding phase. -/
def registryRecommended : List ModelEntry := [⟨"rec", [], ["coding"], none⟩]

/-- One-entry registry whose model declares supportsThinking = false. -/
def registryNoThink : List ModelEntry := [⟨"m1", [], ["coding"], some false⟩]

/-! ## Helper lemmas -/

theorem overlapErrorsFor_eq_nil_iff (a : String) (fbs : List String) :
    overlapErrorsFor a fbs = [] ↔ ∀ fb ∈ fbs, overlapHit (stripGlob a) fb = false := by
  induction fbs with
  | nil => simp [overlapErrorsFor]
  | cons fb rest ih =>
      by_cases h : overlapHit (stripGlob a) fb
      · simp [overlapErrorsFor, h]
      · simp [overlapErrorsFor, h, ih]

theorem overlapErrors_eq_nil_iff (allowed fbs : List String) :
    overlapErrors allowed fbs = [] ↔
      ∀ a ∈ allowed, ∀ fb ∈ fbs, overlapHit (stripGlob a) fb = false := by
  induction allowed with
  | nil => simp [overlapErrors]
  | cons a rest ih =>
      simp [overlapErrors, List.append_eq_nil, ih, overlapErrorsFor_eq_nil_iff]

theorem relativeErrors_eq_nil_iff (allowed : List String) :
    relativeErrors allowed = [] ↔
      ∀ a ∈ allowed, pyStartsWith (normalizePath a) "/" = false := by
  induction allowed with
  | nil => simp [relativeErrors]
  | cons a rest ih =>
      by_cases h : pyStartsWith (normalizePath a) "/"
      · simp [relativeErrors, h]
      · simp [relativeErrors, h, ih]

theorem isBlocked_ite_block (c : Prop) [Decidable c] (r : String) (d : Decision)
    (hd : d.isBlocked = true) :
    (if c then Decision.block r else d).isBlocked = true := by
  by_cases h : c
  · simp [h, Decision.isBlocked]
  · simpa [h] using hd

theorem overlapMsg_mem_overlapErrorsFor (a fb : String) (fbs : List String)
    (hfb : fb ∈ fbs) (hhit : overlapHit (stripGlob a) fb = true) :
    overlapMsg a fb ∈ overlapErrorsFor a fbs := by
  induction fbs with
  | nil => cases hfb
  | cons fb0 rest ih =>
      rcases List.mem_cons.mp hfb with h | h
      · subst h
        simp [overlapErrorsFor, hhit]
      · simp only [overlapErrorsFor, List.mem_append]
        exact Or.inr (ih h)

theorem overlapMsg_mem_overlapErrors (allowed fbs : List String) (a fb : String)
    (ha : a ∈ allowed) (hfb : fb ∈ fbs)
    (hhit : overlapHit (stripGlob a) fb = true) :
    overlapMsg a fb ∈ overlapErrors allowed fbs := by
  induction allowed with
  | nil => cases ha
  | cons a0 rest ih =>
      simp only [overlapErrors, List.mem_append]
      rcases List.mem_cons.mp ha with h | h
      · exact Or.inl (h ▸ overlapMsg_mem_overlapErrorsFor a fb fbs hfb hhit)
      · exact Or.inr (ih h)

/-! ## Claim C1 -/

/-- C1 counterexample: the allowed entry "a" equals-or-prefixes the
forbidden entry "a/b" (second conjunct), yet validation reports no error at
all, so the claimed direction of the overlap test is wrong. -/
theorem validateScopeRules_overlap_direction :
    (validateScopeRules ["a"] ["a/b"]).1 = []
    ∧ pyStartsWith "a/b" ("a" ++ "/") = true := by
  decide

/-- C1 (corrected): `validate_scope_rules` reports an overlap error for a
pair (a, f) when the glob-stripped forbidden base is non-empty and the
glob-stripped allowed entry equals it or lies under it (the direction is the
reverse of the claim), and a contract passes validation (empty error list)
exactly when allowed_paths is non-empty, every allowed entry is relative,
and no (allowed, forbidden) pair overlaps in this sense. -/
theorem validateScopeRules_pass_iff (allowedPaths forbiddenPaths : List String) :
    (∀ a ∈ allowedPaths, ∀ f ∈ forbiddenPaths,
        overlapHit (stripGlob a) (stripGlob f) = true →
          overlapMsg a (stripGlob f) ∈ (validateScopeRules allowedPaths forbiddenPaths).1)
    ∧ ((validateScopeRules allowedPaths forbiddenPaths).1 = [] ↔
        (allowedPaths ≠ []
          ∧ (∀ a ∈ allowedPaths, pyStartsWith (normalizePath a) "/" = false)
          ∧ ∀ a ∈ allowedPaths, ∀ f ∈ forbiddenPaths,
              overlapHit (stripGlob a) (stripGlob f) = false)) := by
  constructor
  · intro a ha f hf hhit
    have hfb : stripGlob f ∈ forbiddenPaths.map stripGlob :=
      List.mem_map_of_mem stripGlob hf
    simp only [validateScopeRules, List.mem_append]
    exact Or.inr (overlapMsg_mem_overlapErrors allowedPaths
      (forbiddenPaths.map stripGlob) a (stripGlob f) ha hfb hhit)
  · simp only [validateScopeRules, List.append_eq_nil, overlapErrors_eq_nil_iff,
      relativeErrors_eq_nil_iff, List.mem_map]
    constructor
    · rintro ⟨⟨hempty, hrel⟩, hover⟩
      refine ⟨?_, hrel, ?_⟩
      · intro hnil
        simp [hnil] at hempty
      · intro a ha f hf
        exact hover a ha (stripGlob f) ⟨f, hf, rfl⟩
    · rintro ⟨hne, hrel, hover⟩
      refine ⟨⟨?_, hrel⟩, ?_⟩
      · have : ¬ allowedPaths.isEmpty := by
          cases allowedPaths with
          | nil => exact absurd rfl hne
          | cons x xs => simp
        simp [this]
      · rintro a ha fb ⟨f, hf, rfl⟩
        exact hover a ha f hf

/-- Witness for C1: a disjoint allowed/forbidden pair passes validation. -/
theorem validateScopeRules_pass_iff_witness :
    (validateScopeRules ["src/**"] [".git/**"]).1 = [] :=
  (validateScopeRules_pass_iff ["src/**"] [".git/**"]).2.mpr
    ⟨by decide, by decide, by decide⟩

/-! ## Claim C2 -/

/-- C2 counterexample: an unset variable resolves to the default (a bound),
not to "no bound", and a negative value resolves to "no bound", not to the
default, contradicting the claim on both points. -/
theorem getTimeoutSeconds_claim_false :
    getTimeoutSeconds .unset 300 = some 300
    ∧ getTimeoutSeconds (.value (-5)) 300 = none := by
  exact ⟨rfl, by decide⟩

/-- C2 (corrected): for each session timeout variable, an unset or
unparseable value resolves to the documented default, while a zero or
negative value resolves to "no bound"; a positive value is used as is. -/
theorem getTimeoutSeconds_amended (kd : String × ℚ)
    (_hkd : kd ∈ sessionTimeoutEnvDefaults) (v : ℚ) :
    getTimeoutSeconds .unset kd.2 = some kd.2
    ∧ getTimeoutSeconds .unparseable kd.2 = some kd.2
    ∧ getTimeoutSeconds (.value 0) kd.2 = none
    ∧ (v ≤ 0 → getTimeoutSeconds (.value v) kd.2 = none)
    ∧ (0 < v → getTimeoutSeconds (.value v) kd.2 = some v) := by
  refine ⟨rfl, rfl, by simp [getTimeoutSeconds], fun hv => ?_, fun hv => ?_⟩
  · simp [getTimeoutSeconds, hv]
  · simp [getTimeoutSeconds, not_le.mpr hv]

/-- Witness for C2 at the stream-idle variable with a negative and a
positive value. -/
theorem getTimeoutSeconds_amended_witness :
    ("IFLOW_STREAM_IDLE_TIMEOUT_SEC", (300 : ℚ)) ∈ sessionTimeoutEnvDefaults
    ∧ getTimeoutSeconds (.value (-1)) 300 = none
    ∧ getTimeoutSeconds (.value 2) 300 = some 2 := by
  refine ⟨by decide, ?_, ?_⟩
  · exact (getTimeoutSeconds_amended ("IFLOW_STREAM_IDLE_TIMEOUT_SEC", 300)
      (by decide) (-1)).2.2.2.1 (by norm_num)
  · exact (getTimeoutSeconds_amended ("IFLOW_STREAM_IDLE_TIMEOUT_SEC", 300)
      (by decide) 2).2.2.2.2 (by norm_num)

/-! ## Claim C3 -/

/-- C3 counterexample: a Bash payload whose command is the empty string is
allowed by the hook (it returns the empty dict), while the claim requires a
block decision for every command that is not a non-empty string. -/
theorem bashSecurityHook_empty_command_allows :
    bashSecurityHook hookEnvPermissive gateDepsId
      [("tool_name", .str "Bash"),
       ("tool_input", .dict [("command", .str "")])] = .allow := by
  decide

/-- C3 (corrected): for a Bash tool call, a missing or None tool_input and a
non-dict tool_input are blocked, and a non-empty string command from which
no program names can be extracted is blocked; but a missing, None or empty
command is allowed (outside manual-verification mode), not blocked. -/
theorem bashSecurityHook_malformed (env : HookEnv) (deps : GateDeps)
    (inputData : List (String × JVal))
    (hname : isBashToolName (jLookup inputData "tool_name") = true) :
    ((jLookup inputData "tool_input" = none
        ∨ jLookup inputData "tool_input" = some .null) →
      (bashSecurityHook env deps inputData).isBlocked = true)
    ∧ (∀ v, jLookup inputData "tool_input" = some v → jIsDict v = false →
        (bashSecurityHook env deps inputData).isBlocked = true)
    ∧ (env.manualVerification = false →
        ∀ es, jLookup inputData "tool_input" = some (.dict es) →
          jTruthy ((jLookup es "command").getD (.str "")) = false →
          bashSecurityHook env deps inputData = .allow)
    ∧ (∀ es s, jLookup inputData "tool_input" = some (.dict es) →
        jLookup es "command" = some (.str s) → s ≠ "" →
        deps.extractCommands s = [] →
        (bashSecurityHook env deps inputData).isBlocked = true) := by
  refine ⟨?_, ?_, ?_, ?_⟩
  · intro hti
    cases hm : env.manualVerification
    · rcases hti with h | h <;> simp [bashSecurityHook, hname, hm, h, Decision.isBlocked]
    · simp [bashSecurityHook, hname, hm, Decision.isBlocked]
  · intro v hv hnd
    cases hm : env.manualVerification
    · cases v <;> simp_all [bashSecurityHook, hname, jIsDict, Decision.isBlocked]
    · simp [bashSecurityHook, hname, hm, Decision.isBlocked]
  · intro hm es hes hfalsy
    simp [bashSecurityHook, hname, hm, hes, hfalsy]
  · intro es s hes hcmd hs hextract
    cases hm : env.manualVerification
    · have hsb : (s != "") = true := by simp [bne_iff_ne, hs]
      simp only [bashSecurityHook, hname, Bool.not_true, Bool.false_eq_true,
        if_false, hm, hes, hcmd, Option.getD_some, jTruthy, hsb,
        Bool.not_false, if_true]
      apply isBlocked_ite_block
      apply isBlocked_ite_block
      simp [hextract, Decision.isBlocked]
    · simp [bashSecurityHook, hname, hm, Decision.isBlocked]

/-- Witness for C3: the four behaviours at concrete payloads. -/
theorem bashSecurityHook_malformed_witness :
    (bashSecurityHook hookEnvPermissive gateDepsId
        [("tool_name", .str "Bash")]).isBlocked = true
    ∧ (bashSecurityHook hookEnvPermissive gateDepsId
        [("tool_name", .str "Bash"), ("tool_input", .str "ls")]).isBlocked = true
    ∧ bashSecurityHook hookEnvPermissive gateDepsId
        [("tool_name", .str "Bash"), ("tool_input", .dict [])] = .allow
    ∧ (bashSecurityHook hookEnvPermissive gateDepsNoParse
        [("tool_name", .str "Bash"),
         ("tool_input", .dict [("command", .str "ls")])]).isBlocked = true := by
  refine ⟨?_, ?_, ?_, ?_⟩
  · exact (bashSecurityHook_malformed hookEnvPermissive gateDepsId
      [("tool_name", .str "Bash")] (by decide)).1 (Or.inl rfl)
  · exact (bashSecurityHook_malformed hookEnvPermissive gateDepsId
      [("tool_name", .str "Bash"), ("tool_input", .str "ls")] (by decide)).2.1
      (.str "ls") rfl (by decide)
  · exact (bashSecurityHook_malformed hookEnvPermissive gateDepsId
      [("tool_name", .str "Bash"), ("tool_input", .dict [])] (by decide)).2.2.1
      rfl [] rfl (by decide)
  · exact (bashSecurityHook_malformed hookEnvPermissive gateDepsNoParse
      [("tool_name", .str "Bash"), ("tool_input", .dict [("command", .str "ls")])]
      (by decide)).2.2.2 [("command", .str "ls")] "ls" rfl rfl
      (by decide) rfl

/-! ## Claim C10 -/

/-- C10 (confirmed): with test-command blocking enabled and no test plan
configured, any Bash command one of whose segments matches an entry of the
built-in default test-command list is blocked with the post-code-tests
reason; blocking is not disabled by the absent plan. -/
theorem bashSecurityHook_default_test_block (env : HookEnv) (deps : GateDeps)
    (inputData : List (String × JVal)) (es : List (String × JVal)) (s : String)
    (hname : isBashToolName (jLookup inputData "tool_name") = true)
    (hman : env.manualVerification = false)
    (hflag : env.blockTestCommands = true)
    (hplan : env.testPlan = [])
    (hinput : jLookup inputData "tool_input" = some (.dict es))
    (hcmd : jLookup es "command" = some (.str s))
    (hs : s ≠ "")
    (hmatch : (deps.splitSegments s).any
        (fun seg => segmentMatchesTestPlan seg DEFAULT_BLOCKED_TEST_COMMANDS) = true) :
    bashSecurityHook env deps inputData
      = .block "Test commands are reserved for Post-Code Tests. Run tests only after coding completes." := by
  have hsb : (s != "") = true := by simp [bne_iff_ne, hs]
  have hempty : env.testPlan.isEmpty = true := by simp [hplan]
  simp [bashSecurityHook, hname, hman, hinput, hcmd, jTruthy, hsb, hempty,
    hflag, hmatch]

/-- Witness for C10: a bare "pytest" command is blocked when the flag is on
and the plan is empty. -/
theorem bashSecurityHook_default_test_block_witness :
    bashSecurityHook hookEnvBlockTests gateDepsId
      [("tool_name", .str "Bash"),
       ("tool_input", .dict [("command", .str "pytest")])]
      = .block "Test commands are reserved for Post-Code Tests. Run tests only after coding completes." :=
  bashSecurityHook_default_test_block hookEnvBlockTests gateDepsId
    [("tool_name", .str "Bash"), ("tool_input", .dict [("command", .str "pytest")])]
    [("command", .str "pytest")] "pytest" (by decide) rfl rfl rfl rfl
    rfl (by decide) (by decide)

/-! ## Claim C4 -/

/-- C4 (confirmed): the preflight scoper writes an empty tests_to_run for
every task whose task_type is not "code", regardless of files, scope
contract contents or project index. -/
theorem preflight_noncode_tests_empty (taskType : String)
    (explicitFiles : Option (List String)) (candidateFiles : List String)
    (getTests : String → List String) (qs0 : List String)
    (h : taskType ≠ "code") :
    (preflightIntakeCore taskType explicitFiles candidateFiles getTests qs0).testsToRun
      = [] := by
  have hb : (taskType != "code") = true := by simp [bne_iff_ne, h]
  simp [preflightIntakeCore, determineTestsToRun, hb]

/-- Witness for C4 at task_type "analysis". -/
theorem preflight_noncode_tests_empty_witness :
    (preflightIntakeCore "analysis" none [] (fun _ => []) []).testsToRun = [] :=
  preflight_noncode_tests_empty "analysis" none [] (fun _ => []) [] (by decide)

/-! ## Claim C5 -/

/-- C5 counterexample: a code task with an empty test plan gets a report
whose status is not "passed" even though the summary counts zero
failures, so the claimed equivalence fails on that invocation. -/
theorem runPostCodeTests_empty_plan_code :
    (runPostCodeTests "code" [] (fun _ => ⟨false, some 0⟩)).status ≠ "passed"
    ∧ (runPostCodeTests "code" [] (fun _ => ⟨false, some 0⟩)).summary.failed = 0 := by
  decide

/-- C5 (corrected): for every invocation with a non-empty test plan, the
report status is "passed" iff the summary counts zero failures; a timed-out
command is never counted as passed.  (With an empty plan on a code task the
status is "failed" while the failed count is zero.) -/
theorem runPostCodeTests_status_iff (taskType : String) (plan : List String)
    (run : String → CommandOutcome) (h : plan ≠ []) :
    ((runPostCodeTests taskType plan run).status = "passed"
      ↔ (runPostCodeTests taskType plan run).summary.failed = 0)
    ∧ ∀ o : CommandOutcome, o.timedOut = true → commandStatus o ≠ "passed" := by
  constructor
  · have hne : plan.isEmpty = false := by
      cases plan with
      | nil => exact absurd rfl h
      | cons x xs => rfl
    simp only [runPostCodeTests, hne, Bool.false_eq_true, if_false]
    by_cases hf :
        (summarizeResults (plan.map fun c => commandStatus (run c))).failed = 0
    · simp [hf]
    · rw [if_neg hf]
      exact iff_of_false (by decide) hf
  · intro o ho
    have hst : commandStatus o = "timed_out" := by simp [commandStatus, ho]
    rw [hst]
    decide

/-- Witness for C5: a one-command plan whose command exits 0 is reported
passed. -/
theorem runPostCodeTests_status_iff_witness :
    (runPostCodeTests "code" ["npm test"] (fun _ => ⟨false, some 0⟩)).status
      = "passed" :=
  ((runPostCodeTests_status_iff "code" ["npm test"] (fun _ => ⟨false, some 0⟩)
    (by decide)).1).mpr (by decide)

/-! ## Claim C7 -/

theorem applyPriorityFilter_length_le (l : List String) (m : Int) :
    (applyPriorityFilter l m).length ≤ m.toNat := by
  simp only [applyPriorityFilter, List.length_map, List.length_take]
  exact Nat.min_le_left _ _

/-- C7 counterexample: three touched files matching the three direct aliases
produce a tests_to_run of length 3, above the claimed cap of 2, and not
ordered by the claimed priority (PYTEST_PROOF_GATE precedes NPM_TEST and
follows PYTEST_SECURITY only by match order). -/
theorem determineTests_cap_exceeded :
    (determineTestsToRun "code"
      ["apps/backend/security/a.py", "apps/backend/qa/b.py",
       "apps/backend/agents/c.py"]
      (getTestsForFile false false) []).1
      = ["PYTEST_SECURITY", "PYTEST_PROOF_GATE", "PYTEST_PIPELINE"]
    ∧ 2 < ((determineTestsToRun "code"
      ["apps/backend/security/a.py", "apps/backend/qa/b.py",
       "apps/backend/agents/c.py"]
      (getTestsForFile false false) []).1).length := by
  decide

theorem applySmartCap_two_cases (tests files : List String)
    (hlen : 2 < tests.length) (hf : files.isEmpty = false) :
    (applySmartCap tests files 2).length ≤ 2
    ∨ (applySmartCap tests files 2
        = tests.filter (fun a => DIRECT_ALIASES.contains a)
       ∧ 2 < (tests.filter (fun a => DIRECT_ALIASES.contains a)).length) := by
  have hguard : ¬((2 : Int) ≤ 0 ∨ (tests.length : Int) ≤ 2) := by
    push_neg
    constructor
    · norm_num
    · exact_mod_cast hlen
  have hfp : ¬(files.isEmpty = true) := by simp [hf]
  unfold applySmartCap
  rw [if_neg hguard, if_neg hfp]
  dsimp only
  set D := tests.filter (fun a => DIRECT_ALIASES.contains a) with hD
  set I := tests.filter (fun a => !D.contains a) with hI
  by_cases hd : 2 < D.length
  · right
    have hle : (2 - (D.length : Int)) ≤ 0 := by omega
    rw [max_eq_left hle, if_neg (by simp)]
    exact ⟨List.append_nil _, hd⟩
  · left
    have hge : (0 : Int) ≤ 2 - (D.length : Int) := by omega
    rw [max_eq_right hge]
    have hkept :
        (if 0 < 2 - (D.length : Int) ∧ I ≠ [] then
            applyPriorityFilter I (2 - (D.length : Int))
          else []).length
          ≤ (2 - (D.length : Int)).toNat := by
      split
      · exact applyPriorityFilter_length_le _ _
      · simp
    rw [List.length_append]
    omega

/-- C7 (corrected): the derived tests_to_run has at most 2 entries except
when more than two direct aliases (PYTEST_SECURITY, PYTEST_PROOF_GATE,
PYTEST_PIPELINE) were matched; in that case the list is exactly all the
matched direct aliases, exceeding the cap, and only non-direct aliases
compete for remaining slots under the priority order. -/
theorem determineTests_cap_amended (taskType : String) (files : List String)
    (getTests : String → List String) (qs : List String) :
    (determineTestsToRun taskType files getTests qs).1.length ≤ 2
    ∨ ((determineTestsToRun taskType files getTests qs).1
        = (collectTests getTests files []).filter (fun a => DIRECT_ALIASES.contains a)
       ∧ 2 < ((collectTests getTests files []).filter
            (fun a => DIRECT_ALIASES.contains a)).length) := by
  by_cases ht : (taskType != "code") = true
  · left; simp [determineTestsToRun, ht]
  · by_cases hfe : files.isEmpty = true
    · left; simp [determineTestsToRun, ht, hfe]
    · by_cases hlen : 2 < (collectTests getTests files []).length
      · have := applySmartCap_two_cases (collectTests getTests files []) files hlen
          (by simpa using hfe)
        simp only [determineTestsToRun, ht, Bool.false_eq_true, if_false, hfe,
          hlen, if_true]
        exact this
      · left
        simp only [determineTestsToRun, ht, Bool.false_eq_true, if_false, hfe,
          hlen, if_false]
        omega

/-! ## Claim C8 -/

/-- C8 counterexample: a code task with no resolvable files records the
Russian clarifying question, and the English question the claim names never
appears in the produced intake. -/
theorem preflight_english_question_absent :
    "Which files will be modified?"
        ∉ (preflightIntakeCore "code" none [] (getTestsForFile false false)
            []).clarifyingQuestions
    ∧ (preflightIntakeCore "code" none [] (getTestsForFile false false)
        []).clarifyingQuestions = [QUESTION_FILES] := by
  decide

/-- C8 (corrected): whenever a code task resolves files_to_modify to the
empty list, the produced intake has empty tests_to_run and its
clarifying_questions contain the question "Какие файлы будут изменены?"
(Russian for "Which files will be modified?"). -/
theorem preflight_code_nofiles (explicitFiles : Option (List String))
    (candidateFiles : List String) (getTests : String → List String)
    (qs0 : List String)
    (h : (preflightIntakeCore "code" explicitFiles candidateFiles getTests
        qs0).filesToModify = []) :
    (preflightIntakeCore "code" explicitFiles candidateFiles getTests
        qs0).testsToRun = []
    ∧ QUESTION_FILES ∈ (preflightIntakeCore "code" explicitFiles candidateFiles
        getTests qs0).clarifyingQuestions := by
  simp only [preflightIntakeCore] at h ⊢
  rw [h]
  simp only [determineTestsToRun, List.isEmpty_nil, if_true]
  constructor
  · simp
  · by_cases hq : (resolveFilesToModify "code" explicitFiles candidateFiles
        qs0).2.contains QUESTION_FILES
    · simp only [hq, if_true]
      simpa using hq
    · simp only [hq, Bool.false_eq_true, if_false]
      simp

/-- Witness for C8 with no explicit files and no candidates. -/
theorem preflight_code_nofiles_witness :
    (preflightIntakeCore "code" none [] (fun _ => []) []).testsToRun = []
    ∧ QUESTION_FILES
        ∈ (preflightIntakeCore "code" none [] (fun _ => []) []).clarifyingQuestions :=
  preflight_code_nofiles none [] (fun _ => []) [] (by decide)

/-! ## Claim C6 -/

theorem resolveFromSourcesAux_eq (phase feature role : Option String)
    (sources : List Routing) (m t : Option String) :
    resolveFromSourcesAux phase feature role sources m t =
      (m <|> ((sources.filterMap (fun s => selectChoice s phase feature role)).filterMap
          (fun c => c.model)).head?,
       t <|> ((sources.filterMap (fun s => selectChoice s phase feature role)).filterMap
          (fun c => c.thinkingLevel)).head?) := by
  induction sources generalizing m t with
  | nil => simp [resolveFromSourcesAux]
  | cons r rest ih =>
      cases hsel : selectChoice r phase feature role with
      | none =>
          simp only [resolveFromSourcesAux, hsel, List.filterMap_cons]
          simp [ih]
      | some c =>
          simp only [resolveFromSourcesAux, hsel, List.filterMap_cons]
          rw [ih]
          cases m <;> cases t <;> cases hm : c.model <;> cases ht2 : c.thinkingLevel
            <;> simp [hm, ht2]

/-- C6 counterexample: with a single source whose features entry exists but
has a null model while its phases entry carries a model "X", the claimed
walk (advancedRoles, then features, then phases within the source) yields
model "X", but resolve_model ignores the phases entry of that source and
falls back to the recommended model "rec". -/
theorem resolveModel_order_diverges :
    resolveModel registryRecommended [] (fun _ => none) [routingFeatureNullModel]
      (some "coding") (some "cons") none none none
      = some ("rec", "high", some 16384)
    ∧ (claimedResolveFromSources [routingFeatureNullModel] (some "coding")
        (some "cons") none).1 = some "X"
    ∧ ("rec" : String) ≠ "X" := by
  decide

/-- C6 (corrected): the resolver walks task_metadata, project.env, app
settings in order, but within each source consults only the first present
dict among advancedRoles[feature][role], features[feature], phases[phase];
across sources the first consulted choice with a non-null model supplies the
model and the first with a non-null thinkingLevel supplies the level
(possibly different sources); a truthy CLI override wins, and with no model
found the recommended registry model for the phase or feature is used. -/
theorem resolveModel_precedence (models : List ModelEntry)
    (legacy : List (String × String)) (envLookup : String → Option String)
    (sources : List Routing) (phase feature role : Option String)
    (cliModel cliThinking : Option String) :
    resolveModel models legacy envLookup sources phase feature role cliModel cliThinking
      = (let p2 := normalizePhaseName phase
         let chain := sources.filterMap (fun s => selectChoice s p2 feature role)
         let m0 := (chain.filterMap (fun c => c.model)).head?
         let t0 := (chain.filterMap (fun c => c.thinkingLevel)).head?
         let mv := if pyTruthyOpt cliModel then cliModel else m0
         let tv := if pyTruthyOpt cliThinking then cliThinking else t0
         match (match mv with
                | some v => some v
                | none => getRecommendedModel models p2 feature) with
         | none => none
         | some v =>
             let mid := resolveModelId envLookup legacy models v
             let tb := getThinkingBudget models (tv.getD "medium") mid
             some (mid, tb.1, tb.2)) := by
  unfold resolveModel resolveFromSources
  dsimp only
  rw [resolveFromSourcesAux_eq]
  simp only [Option.none_orElse]

/-! ## Claim C9 -/

/-- C9 (confirmed): whenever resolve_model returns a model whose registry
entry declares supportsThinking = false, the returned thinking level is
"none" and the budget is null, regardless of all requested or resolved
levels. -/
theorem resolveModel_noThinking (models : List ModelEntry)
    (legacy : List (String × String)) (envLookup : String → Option String)
    (sources : List Routing) (phase feature role : Option String)
    (cliModel cliThinking : Option String) (mid lvl : String)
    (bud : Option Int) (e : ModelEntry)
    (h : resolveModel models legacy envLookup sources phase feature role
        cliModel cliThinking = some (mid, lvl, bud))
    (hinfo : getModelInfo models mid = some e)
    (hsup : e.supportsThinking = some false) :
    lvl = "none" ∧ bud = none := by
  unfold resolveModel at h
  dsimp only at h
  split at h
  · exact absurd h (by simp)
  · simp only [Option.some.injEq, Prod.mk.injEq] at h
    obtain ⟨hmid, hlvl, hbud⟩ := h
    subst hmid
    subst hlvl
    subst hbud
    unfold getThinkingBudget
    rw [hinfo]
    simp [hsup]

/-- Witness for C9: a registry whose only model declares
supportsThinking = false resolves with level "none" and a null budget. -/
theorem resolveModel_noThinking_witness :
    resolveModel registryNoThink [] (fun _ => none) [] (some "coding")
        none none none none = some ("m1", "none", none)
    ∧ ("none" : String) = "none" ∧ (none : Option Int) = none := by
  refine ⟨by decide, ?_⟩
  exact resolveModel_noThinking registryNoThink [] (fun _ => none) []
    (some "coding") none none none none "m1" "none" none
    ⟨"m1", [], ["coding"], some false⟩ (by decide) (by decide) rfl

end AutoIFlow
